import Mathlib

/-!
Verification of `revenue_leakage_detector.py`.

The program is a three-stage batch pipeline over a tabular dataset:

* `load_data` reads a CSV into a data frame, coerces the columns
  `MonthlyCharges`, `tenure` and `TotalCharges` to numbers (unparseable
  cells become the missing marker `NaN`), and appends the derived columns
  `ExpectedRevenue = tenure * MonthlyCharges` and
  `RevenueLeakage = ExpectedRevenue - TotalCharges`;
* `compute_statistics` reduces the `RevenueLeakage` column (missing
  values dropped) to four summary statistics;
* `plot_leakage_histogram` renders a 15-bin histogram of the non-missing
  leakage values.

The embedding below models a data frame as an association list of named
columns of cells, a cell being a number (numeric values are modelled by
`ℚ`), a text value, or the missing marker `NaN` (`Cell.na`).  The mean of
an empty column, `NaN` in the reference, is modelled as `Option.none`.
-/

namespace RLD

/-- A cell of the tabular data: a numeric value, a raw text value, or the
missing marker (pandas `NaN`).  Numeric values are modelled by `ℚ`. -/
inductive Cell where
  | num (q : ℚ)
  | text (s : String)
  | na
deriving DecidableEq

/-- The numeric value of a list of decimal digit characters. -/
def digitsVal (cs : List Char) : Nat :=
  cs.foldl (fun n c => 10 * n + (c.toNat - 48)) 0

/-- Strip whitespace from both ends of a character list. -/
def trimWs (cs : List Char) : List Char :=
  ((cs.dropWhile (fun c => c.isWhitespace)).reverse.dropWhile
    (fun c => c.isWhitespace)).reverse

/-- Parse an unsigned decimal numeral: digits, optionally with a decimal
point (`"45"`, `"4.5"`, `"45."`, `".5"`).  Anything else is unparseable. -/
def parseUnsigned (cs : List Char) : Option ℚ :=
  let intPart := cs.takeWhile (fun c => c.isDigit)
  let rest := cs.dropWhile (fun c => c.isDigit)
  match rest with
  | [] => if intPart.isEmpty then none else some (digitsVal intPart : ℚ)
  | '.' :: frac =>
      if frac.all (fun c => c.isDigit) && (!intPart.isEmpty || !frac.isEmpty) then
        some ((digitsVal intPart : ℚ) + (digitsVal frac : ℚ) / (10 : ℚ) ^ frac.length)
      else none
  | _ => none

/-- Modelled from the spec: the numeric coercion of a text cell performed by
the library call `pd.to_numeric(..., errors='coerce')`, whose body is not
part of this repository.  A trimmed, optionally signed decimal numeral
parses to its value; any other text is unparseable and yields no number. -/
def parseNum (s : String) : Option ℚ :=
  match trimWs s.toList with
  | '-' :: rest => (parseUnsigned rest).map (fun q => -q)
  | '+' :: rest => parseUnsigned rest
  | cs => parseUnsigned cs

/-- Numeric coercion of one cell, as in
`pd.to_numeric(column, errors='coerce')`: numbers are kept, text that
parses as a number becomes that number, anything else becomes the missing
marker `NaN` — never zero, and never an error. -/
def toNumeric : Cell → Cell
  | .num q => .num q
  | .text s =>
      match parseNum s with
      | some q => .num q
      | none => .na
  | .na => .na

/-- A data frame: an association list of named columns. -/
abbrev DF : Type := List (String × List Cell)

/-- Column lookup, as `df['name']` on the right-hand side of an assignment
(first column of that name; `none` models the `KeyError` raised when the
column is absent). -/
def getCol (df : DF) (name : String) : Option (List Cell) :=
  (df.find? (fun p => p.1 == name)).map (fun p => p.2)

/-- Column assignment `df['name'] = col`: replaces the column in place when
present, otherwise appends it as the last column (pandas semantics). -/
def setCol : DF → String → List Cell → DF
  | [], name, col => [(name, col)]
  | p :: tl, name, col =>
      if p.1 == name then (name, col) :: tl
      else p :: setCol tl name col

/-- Whether the data frame has a column of this name. -/
def hasCol (df : DF) (name : String) : Bool :=
  (getCol df name).isSome

/-- The row count `len(df)`: the common length of the columns (read off the
first column; meaningful for well-formed frames). -/
def nRows (df : DF) : Nat :=
  ((df.head?).map (fun p => p.2.length)).getD 0

/-- The list of column names of the frame. -/
def colNames (df : DF) : List String :=
  df.map (fun p => p.1)

/-- Well-formedness of a data frame: every column has the common row
count (every pandas `DataFrame` satisfies this). -/
@[reducible] def wfDF (df : DF) : Prop :=
  ∀ p ∈ df, p.2.length = nRows df

/-- Multiplication of two cells of coerced (numeric-or-missing) columns,
as in `df['tenure'] * df['MonthlyCharges']`: `NaN` propagates, so the
product is missing unless both operands are numbers. -/
def cellMul : Cell → Cell → Cell
  | .num a, .num b => .num (a * b)
  | _, _ => .na

/-- Subtraction of two cells of coerced columns, as in
`df['ExpectedRevenue'] - df['TotalCharges']`: `NaN` propagates. -/
def cellSub : Cell → Cell → Cell
  | .num a, .num b => .num (a - b)
  | _, _ => .na

/-- The ways `load_data` can fail: `pd.read_csv` raising (source missing
or malformed), or a `KeyError` on a required column. -/
inductive LoadError where
  | readFailure
  | missingColumn (name : String)
deriving DecidableEq

/-- `load_data`: the input `Option DF` models the outcome of
`pd.read_csv(csv_path)` (`none` when the read itself raises).  Following
the source line by line: coerce `MonthlyCharges`, `tenure` and
`TotalCharges` with `pd.to_numeric(..., errors='coerce')`, then append
`ExpectedRevenue = df['tenure'] * df['MonthlyCharges']` and
`RevenueLeakage = df['ExpectedRevenue'] - df['TotalCharges']`. -/
def load_data (src : Option DF) : Except LoadError DF :=
  match src with
  | none => .error .readFailure
  | some df =>
    match getCol df "MonthlyCharges" with
    | none => .error (.missingColumn "MonthlyCharges")
    | some mc =>
      let df1 := setCol df "MonthlyCharges" (mc.map toNumeric)
      match getCol df1 "tenure" with
      | none => .error (.missingColumn "tenure")
      | some ten =>
        let df2 := setCol df1 "tenure" (ten.map toNumeric)
        match getCol df2 "TotalCharges" with
        | none => .error (.missingColumn "TotalCharges")
        | some tc =>
          let df3 := setCol df2 "TotalCharges" (tc.map toNumeric)
          let er := List.zipWith cellMul ((getCol df3 "tenure").getD [])
                      ((getCol df3 "MonthlyCharges").getD [])
          let df4 := setCol df3 "ExpectedRevenue" er
          let rl := List.zipWith cellSub ((getCol df4 "ExpectedRevenue").getD [])
                      ((getCol df4 "TotalCharges").getD [])
          .ok (setCol df4 "RevenueLeakage" rl)

/-- The `ExpectedRevenue` column produced by `load_data` from the coerced
`tenure` and `MonthlyCharges` columns. -/
def erCol (tcol mcol : List Cell) : List Cell :=
  List.zipWith cellMul (tcol.map toNumeric) (mcol.map toNumeric)

/-- The `RevenueLeakage` column produced by `load_data` from the coerced
columns: `ExpectedRevenue - TotalCharges`, cellwise. -/
def rlCol (tcol mcol ccol : List Cell) : List Cell :=
  List.zipWith cellSub (erCol tcol mcol) (ccol.map toNumeric)

/-- The frame returned by a successful `load_data` run, given the three
required columns of the input frame (proved equal to the run's result in
`load_data_spec`). -/
def loadOut (df : DF) (tcol mcol ccol : List Cell) : DF :=
  setCol (setCol (setCol (setCol (setCol df
      "MonthlyCharges" (mcol.map toNumeric))
      "tenure" (tcol.map toNumeric))
      "TotalCharges" (ccol.map toNumeric))
      "ExpectedRevenue" (erCol tcol mcol))
      "RevenueLeakage" (rlCol tcol mcol ccol)

/-- Drop the missing values of a column and keep the numeric values, as
`df['RevenueLeakage'].dropna()`.  The `RevenueLeakage` column only ever
holds numbers and `NaN`, so dropping `NaN` leaves exactly the numbers. -/
def dropna (col : List Cell) : List ℚ :=
  col.filterMap (fun c =>
    match c with
    | .num q => some q
    | _ => none)

/-- The four summary statistics returned by `compute_statistics`.  The
mean of an empty series (`NaN` in the reference) is modelled as `none`. -/
structure Stats where
  total_records : Nat
  total_leakage : ℚ
  average_leakage : Option ℚ
  positive_leakage_count : Nat
deriving DecidableEq

/-- `compute_statistics`: drop the missing leakage values, then take
`len(df)`, the sum, the mean and the count of positive values.  `none`
models the `KeyError` when the `RevenueLeakage` column is absent. -/
def compute_statistics (df : DF) : Option Stats :=
  (getCol df "RevenueLeakage").map (fun col =>
    let leakage := dropna col
    ⟨nRows df,
     leakage.sum,
     if leakage.length = 0 then none
     else some (leakage.sum / (leakage.length : ℚ)),
     (leakage.filter (fun q => decide (0 < q))).length⟩)

/-- Modelled from the spec: the bin edges computed by the plotting-library
call `plt.hist(leakage, bins=n)`, whose body is not part of this
repository.  Per the spec the bins are `n` equal-width intervals spanning
the observed min-to-max range, so edge `i` is `lo + (hi - lo) * i / n`. -/
def histEdges (lo hi : ℚ) (nbins : Nat) : List ℚ :=
  (List.range (nbins + 1)).map (fun (i : Nat) => lo + (hi - lo) * (i : ℚ) / (nbins : ℚ))

/-- Modelled from the spec: the per-bin frequencies of the histogram.  A
value falls in bin `i` when it lies between edges `i` and `i + 1` (the
last bin closed on the right). -/
def histCounts (lo hi : ℚ) (nbins : Nat) (values : List ℚ) : List Nat :=
  (List.range nbins).map (fun (i : Nat) =>
    values.countP (fun v =>
      decide (lo + (hi - lo) * (i : ℚ) / (nbins : ℚ) ≤ v) &&
      (if i + 1 == nbins then decide (v ≤ hi)
       else decide (v < lo + (hi - lo) * ((i : ℚ) + 1) / (nbins : ℚ)))))

/-- `plot_leakage_histogram`, reduced to its data content: drop the
missing leakage values and bin them into 15 equal-width bins (the binning
itself is modelled from the spec, see `histEdges`).  An empty value set
yields a degenerate plot — 15 empty bins over a default range — rather
than an error.  `none` models the `KeyError` when the column is absent;
the rendering and file output carry no further data. -/
def plot_leakage_histogram (df : DF) : Option (List ℚ × List Nat) :=
  (getCol df "RevenueLeakage").map (fun col =>
    let leakage := dropna col
    match leakage.min?, leakage.max? with
    | some lo, some hi => (histEdges lo hi 15, histCounts lo hi 15 leakage)
    | _, _ => (histEdges 0 1 15, List.replicate 15 0))

/-! ### Concrete test frames

Small concrete inputs used to witness the theorems; `dfScenA` and
`dfScenB` are Scenario A and Scenario B of the spec. -/

/-- Scenario A input: one row, tenure 10, monthly 50, total 450. -/
def dfScenA : DF :=
  [("tenure", [Cell.num 10]), ("MonthlyCharges", [Cell.num 50]),
   ("TotalCharges", [Cell.num 450])]

/-- Scenario B input: one row, tenure 5, monthly 20, unparseable total. -/
def dfScenB : DF :=
  [("tenure", [Cell.num 5]), ("MonthlyCharges", [Cell.num 20]),
   ("TotalCharges", [Cell.text "NA"])]

/-- The frame `load_data` produces on `dfScenB` (note the present
`ExpectedRevenue` value next to the missing `RevenueLeakage`). -/
def outScenB : DF :=
  [("tenure", [Cell.num 5]), ("MonthlyCharges", [Cell.num 20]),
   ("TotalCharges", [Cell.na]),
   ("ExpectedRevenue", [Cell.num (5 * 20)]),
   ("RevenueLeakage", [Cell.na])]

/-- An input frame that already contains an `ExpectedRevenue` column. -/
def dfPreER : DF :=
  [("tenure", [Cell.num 1]), ("MonthlyCharges", [Cell.num 2]),
   ("TotalCharges", [Cell.num 3]), ("ExpectedRevenue", [Cell.text "x"])]

/-- The frame `load_data` produces on `dfPreER`: the pre-existing
`ExpectedRevenue` column is overwritten in place, and only
`RevenueLeakage` is appended. -/
def outPreER : DF :=
  [("tenure", [Cell.num 1]), ("MonthlyCharges", [Cell.num 2]),
   ("TotalCharges", [Cell.num 3]), ("ExpectedRevenue", [Cell.num (1 * 2)]),
   ("RevenueLeakage", [Cell.num (1 * 2 - 3)])]

/-- An input frame with an extra untouched column and the three required
columns, free of the derived column names. -/
def dfExtra : DF :=
  [("customerID", [Cell.text "a"]), ("tenure", [Cell.num 10]),
   ("MonthlyCharges", [Cell.num 50]), ("TotalCharges", [Cell.num 450])]

/-- An input frame whose three required cells are all unparseable or
missing. -/
def dfGarbage : DF :=
  [("tenure", [Cell.text "x"]), ("MonthlyCharges", [Cell.na]),
   ("TotalCharges", [Cell.text "NA"])]

/-- An input frame whose tenure cell fails coercion while the two charge
cells are numeric. -/
def dfBadTenure : DF :=
  [("tenure", [Cell.text "BAD"]), ("MonthlyCharges", [Cell.num 20]),
   ("TotalCharges", [Cell.num 30])]

/-- An input frame lacking the required charge columns. -/
def dfMissingCols : DF :=
  [("tenure", [Cell.num 1])]

/-- A frame with a two-value leakage column, for the aggregator. -/
def dfLeak : DF :=
  [("RevenueLeakage", [Cell.num 2, Cell.num 4])]

/-- A frame whose leakage column mixes a missing value with numbers, for
the histogram. -/
def dfHist : DF :=
  [("RevenueLeakage", [Cell.num 0, Cell.na, Cell.num 30])]

/-! ### Helper lemmas about the data-frame operations -/

theorem setCol_cons_pos (p : String × List Cell) (tl : DF) (n : String) (col : List Cell)
    (h : p.1 = n) : setCol (p :: tl) n col = (n, col) :: tl := by
  simp [setCol, h]

theorem setCol_cons_neg (p : String × List Cell) (tl : DF) (n : String) (col : List Cell)
    (h : ¬p.1 = n) : setCol (p :: tl) n col = p :: setCol tl n col := by
  simp [setCol, h]

theorem getCol_setCol_self (df : DF) (n : String) (col : List Cell) :
    getCol (setCol df n col) n = some col := by
  induction df with
  | nil => simp [setCol, getCol]
  | cons p tl ih =>
      by_cases h : p.1 = n
      · rw [setCol_cons_pos p tl n col h]
        simp [getCol]
      · rw [setCol_cons_neg p tl n col h]
        simpa [getCol, h] using ih

theorem getCol_setCol_ne (df : DF) (n m : String) (col : List Cell) (hnm : m ≠ n) :
    getCol (setCol df n col) m = getCol df m := by
  have hnm' : ¬(n = m) := fun h => hnm h.symm
  induction df with
  | nil => simp [setCol, getCol, hnm']
  | cons p tl ih =>
      by_cases h : p.1 = n
      · rw [setCol_cons_pos p tl n col h]
        have hpm : ¬(p.1 = m) := by rw [h]; exact hnm'
        simp [getCol, hnm', hpm]
      · rw [setCol_cons_neg p tl n col h]
        by_cases h2 : p.1 = m
        · simp [getCol, h2]
        · simpa [getCol, h2] using ih

theorem mem_setCol (df : DF) (n : String) (col : List Cell) (q : String × List Cell)
    (hq : q ∈ setCol df n col) : q = (n, col) ∨ q ∈ df := by
  induction df with
  | nil => simpa [setCol] using hq
  | cons p tl ih =>
      by_cases h : p.1 = n
      · rw [setCol_cons_pos p tl n col h] at hq
        rcases List.mem_cons.mp hq with h1 | h1
        · exact Or.inl h1
        · exact Or.inr (List.mem_cons_of_mem p h1)
      · rw [setCol_cons_neg p tl n col h] at hq
        rcases List.mem_cons.mp hq with h1 | h1
        · exact Or.inr (h1 ▸ List.mem_cons_self p tl)
        · rcases ih h1 with h2 | h2
          · exact Or.inl h2
          · exact Or.inr (List.mem_cons_of_mem p h2)

theorem setCol_ne_nil (df : DF) (n : String) (col : List Cell) : setCol df n col ≠ [] := by
  cases df with
  | nil => simp [setCol]
  | cons p tl =>
      by_cases h : p.1 = n
      · rw [setCol_cons_pos p tl n col h]; simp
      · rw [setCol_cons_neg p tl n col h]; simp

theorem colNames_cons (p : String × List Cell) (tl : DF) :
    colNames (p :: tl) = p.1 :: colNames tl := rfl

theorem colNames_setCol_mem (df : DF) (n : String) (col : List Cell)
    (h : n ∈ colNames df) : colNames (setCol df n col) = colNames df := by
  induction df with
  | nil => simp [colNames] at h
  | cons p tl ih =>
      by_cases hp : p.1 = n
      · rw [setCol_cons_pos p tl n col hp]
        rw [colNames_cons, colNames_cons, hp]
      · rw [setCol_cons_neg p tl n col hp]
        have htl : n ∈ colNames tl := by
          rw [colNames_cons] at h
          rcases List.mem_cons.mp h with h1 | h1
          · exact absurd h1.symm hp
          · exact h1
        rw [colNames_cons, colNames_cons, ih htl]

theorem colNames_setCol_not_mem (df : DF) (n : String) (col : List Cell)
    (h : ¬n ∈ colNames df) : colNames (setCol df n col) = colNames df ++ [n] := by
  induction df with
  | nil => simp [colNames, setCol]
  | cons p tl ih =>
      have hp : ¬p.1 = n := fun he =>
        h (by rw [colNames_cons, he]; exact List.mem_cons_self n (colNames tl))
      rw [setCol_cons_neg p tl n col hp]
      have htl : ¬n ∈ colNames tl := fun he =>
        h (by rw [colNames_cons]; exact List.mem_cons_of_mem p.1 he)
      rw [colNames_cons, colNames_cons, ih htl]
      rfl

theorem getCol_mem (df : DF) (n : String) (col : List Cell)
    (h : getCol df n = some col) : (n, col) ∈ df := by
  unfold getCol at h
  rcases Option.map_eq_some'.mp h with ⟨p, hp, hcol⟩
  have hmem := List.mem_of_find?_eq_some hp
  have hpred := List.find?_some hp
  have h1 : p.1 = n := by simpa using hpred
  have h2 : p = (n, col) := by
    cases p
    simp_all
  exact h2 ▸ hmem

theorem nRows_eq_of_len (df : DF) (k : Nat) (hne : df ≠ [])
    (h : ∀ p ∈ df, p.2.length = k) : nRows df = k := by
  cases df with
  | nil => exact absurd rfl hne
  | cons p tl =>
      simp only [nRows, List.head?]
      exact h p (List.mem_cons_self p tl)

theorem zipWith_getElem? (f : Cell → Cell → Cell) :
    ∀ (a b : List Cell) (i : Nat) (x y : Cell),
      a[i]? = some x → b[i]? = some y → (List.zipWith f a b)[i]? = some (f x y)
  | ha :: _, hb :: _, 0, x, y, hx, hy => by
      simp only [List.getElem?_cons_zero, Option.some.injEq] at hx hy
      simp [List.zipWith, hx, hy]
  | ha :: ta, hb :: tb, i + 1, x, y, hx, hy => by
      simp only [List.getElem?_cons_succ] at hx hy
      simpa [List.zipWith] using zipWith_getElem? f ta tb i x y hx hy
  | [], _, i, x, y, hx, _ => by simp at hx
  | _ :: _, [], i, x, y, _, hy => by simp at hy

/-- Characterization of a successful `load_data` run: when the three
required columns are present, the result is the input frame with the
three columns coerced in place and the two derived columns set. -/
theorem load_data_spec (df : DF) (tcol mcol ccol : List Cell)
    (hT : getCol df "tenure" = some tcol)
    (hM : getCol df "MonthlyCharges" = some mcol)
    (hC : getCol df "TotalCharges" = some ccol) :
    load_data (some df) = .ok (loadOut df tcol mcol ccol) := by
  have h1 : getCol (setCol df "MonthlyCharges" (mcol.map toNumeric)) "tenure" = some tcol := by
    rw [getCol_setCol_ne df "MonthlyCharges" "tenure" (mcol.map toNumeric) (by decide)]
    exact hT
  have h2 : getCol (setCol (setCol df "MonthlyCharges" (mcol.map toNumeric))
      "tenure" (tcol.map toNumeric)) "TotalCharges" = some ccol := by
    rw [getCol_setCol_ne _ "tenure" "TotalCharges" _ (by decide),
        getCol_setCol_ne _ "MonthlyCharges" "TotalCharges" _ (by decide)]
    exact hC
  have h3 : getCol (setCol (setCol (setCol df "MonthlyCharges" (mcol.map toNumeric))
      "tenure" (tcol.map toNumeric)) "TotalCharges" (ccol.map toNumeric)) "tenure"
      = some (tcol.map toNumeric) := by
    rw [getCol_setCol_ne _ "TotalCharges" "tenure" _ (by decide),
        getCol_setCol_self]
  have h4 : getCol (setCol (setCol (setCol df "MonthlyCharges" (mcol.map toNumeric))
      "tenure" (tcol.map toNumeric)) "TotalCharges" (ccol.map toNumeric)) "MonthlyCharges"
      = some (mcol.map toNumeric) := by
    rw [getCol_setCol_ne _ "TotalCharges" "MonthlyCharges" _ (by decide),
        getCol_setCol_ne _ "tenure" "MonthlyCharges" _ (by decide),
        getCol_setCol_self]
  have h5 : getCol (setCol (setCol (setCol (setCol df "MonthlyCharges" (mcol.map toNumeric))
      "tenure" (tcol.map toNumeric)) "TotalCharges" (ccol.map toNumeric))
      "ExpectedRevenue" (List.zipWith cellMul (tcol.map toNumeric) (mcol.map toNumeric)))
      "ExpectedRevenue"
      = some (List.zipWith cellMul (tcol.map toNumeric) (mcol.map toNumeric)) := by
    rw [getCol_setCol_self]
  have h6 : getCol (setCol (setCol (setCol (setCol df "MonthlyCharges" (mcol.map toNumeric))
      "tenure" (tcol.map toNumeric)) "TotalCharges" (ccol.map toNumeric))
      "ExpectedRevenue" (List.zipWith cellMul (tcol.map toNumeric) (mcol.map toNumeric)))
      "TotalCharges" = some (ccol.map toNumeric) := by
    rw [getCol_setCol_ne _ "ExpectedRevenue" "TotalCharges" _ (by decide),
        getCol_setCol_self]
  simp only [load_data, hM, h1, h2, h3, h4, Option.getD_some, h5, h6, loadOut, erCol, rlCol]

theorem cellMul_na_left (c : Cell) : cellMul Cell.na c = Cell.na := by
  cases c <;> rfl

theorem cellMul_na_right (c : Cell) : cellMul c Cell.na = Cell.na := by
  cases c <;> rfl

theorem cellSub_na_left (c : Cell) : cellSub Cell.na c = Cell.na := by
  cases c <;> rfl

theorem cellSub_na_right (c : Cell) : cellSub c Cell.na = Cell.na := by
  cases c <;> rfl

theorem getCol_loadOut_rl (df : DF) (tcol mcol ccol : List Cell) :
    getCol (loadOut df tcol mcol ccol) "RevenueLeakage" = some (rlCol tcol mcol ccol) := by
  unfold loadOut
  rw [getCol_setCol_self]

theorem getCol_loadOut_er (df : DF) (tcol mcol ccol : List Cell) :
    getCol (loadOut df tcol mcol ccol) "ExpectedRevenue" = some (erCol tcol mcol) := by
  unfold loadOut
  rw [getCol_setCol_ne _ "RevenueLeakage" "ExpectedRevenue" _ (by decide),
      getCol_setCol_self]

theorem getCol_loadOut_other (df : DF) (tcol mcol ccol : List Cell) (m : String)
    (h1 : m ≠ "tenure") (h2 : m ≠ "MonthlyCharges") (h3 : m ≠ "TotalCharges")
    (h4 : m ≠ "ExpectedRevenue") (h5 : m ≠ "RevenueLeakage") :
    getCol (loadOut df tcol mcol ccol) m = getCol df m := by
  unfold loadOut
  rw [getCol_setCol_ne _ _ _ _ h5, getCol_setCol_ne _ _ _ _ h4,
      getCol_setCol_ne _ _ _ _ h3, getCol_setCol_ne _ _ _ _ h1,
      getCol_setCol_ne _ _ _ _ h2]

theorem loadOut_ne_nil (df : DF) (tcol mcol ccol : List Cell) :
    loadOut df tcol mcol ccol ≠ [] := by
  unfold loadOut
  exact setCol_ne_nil _ _ _

theorem setCol_len (df : DF) (n : String) (col : List Cell) (k : Nat)
    (hdf : ∀ p ∈ df, p.2.length = k) (hcol : col.length = k) :
    ∀ p ∈ setCol df n col, p.2.length = k := by
  intro p hp
  rcases mem_setCol df n col p hp with h | h
  · rw [h]
    exact hcol
  · exact hdf p h

theorem erCol_length (tcol mcol : List Cell) :
    (erCol tcol mcol).length = min tcol.length mcol.length := by
  simp [erCol]

theorem rlCol_length (tcol mcol ccol : List Cell) :
    (rlCol tcol mcol ccol).length = min (min tcol.length mcol.length) ccol.length := by
  simp [rlCol, erCol]

theorem loadOut_len (df : DF) (tcol mcol ccol : List Cell) (k : Nat)
    (hdf : ∀ p ∈ df, p.2.length = k) (ht : tcol.length = k)
    (hm : mcol.length = k) (hc : ccol.length = k) :
    ∀ p ∈ loadOut df tcol mcol ccol, p.2.length = k := by
  unfold loadOut
  apply setCol_len
  · apply setCol_len
    · apply setCol_len
      · apply setCol_len
        · apply setCol_len
          · exact hdf
          · simpa using hm
        · simpa using ht
      · simpa using hc
    · rw [erCol_length, ht, hm]
      simp
  · rw [rlCol_length, ht, hm, hc]
    simp

theorem nRows_loadOut (df : DF) (tcol mcol ccol : List Cell) (k : Nat)
    (hdf : ∀ p ∈ df, p.2.length = k) (ht : tcol.length = k)
    (hm : mcol.length = k) (hc : ccol.length = k) :
    nRows (loadOut df tcol mcol ccol) = k :=
  nRows_eq_of_len _ k (loadOut_ne_nil df tcol mcol ccol)
    (loadOut_len df tcol mcol ccol k hdf ht hm hc)

theorem getCol_name_mem (df : DF) (n : String) (col : List Cell)
    (h : getCol df n = some col) : n ∈ colNames df := by
  have hmem := getCol_mem df n col h
  exact List.mem_map.mpr ⟨(n, col), hmem, rfl⟩

theorem getCol_some_ne_nil (df : DF) (n : String) (col : List Cell)
    (h : getCol df n = some col) : df ≠ [] := by
  intro he
  rw [he] at h
  simp [getCol] at h

theorem colNames_loadOut (df : DF) (tcol mcol ccol : List Cell)
    (hT : "tenure" ∈ colNames df) (hM : "MonthlyCharges" ∈ colNames df)
    (hC : "TotalCharges" ∈ colNames df)
    (hER : ¬"ExpectedRevenue" ∈ colNames df)
    (hRL : ¬"RevenueLeakage" ∈ colNames df) :
    colNames (loadOut df tcol mcol ccol) =
      colNames df ++ ["ExpectedRevenue", "RevenueLeakage"] := by
  unfold loadOut
  have e1 := colNames_setCol_mem df "MonthlyCharges" (mcol.map toNumeric) hM
  have e2 := colNames_setCol_mem _ "tenure" (tcol.map toNumeric) (e1 ▸ hT)
  have e3 := colNames_setCol_mem _ "TotalCharges" (ccol.map toNumeric)
    (e2 ▸ e1 ▸ hC)
  have hER3 : ¬"ExpectedRevenue" ∈ colNames (setCol (setCol (setCol df
      "MonthlyCharges" (mcol.map toNumeric)) "tenure" (tcol.map toNumeric))
      "TotalCharges" (ccol.map toNumeric)) := by
    rw [e3, e2, e1]
    exact hER
  have e4 := colNames_setCol_not_mem _ "ExpectedRevenue" (erCol tcol mcol) hER3
  have hRL4 : ¬"RevenueLeakage" ∈ colNames (setCol (setCol (setCol (setCol df
      "MonthlyCharges" (mcol.map toNumeric)) "tenure" (tcol.map toNumeric))
      "TotalCharges" (ccol.map toNumeric)) "ExpectedRevenue" (erCol tcol mcol)) := by
    rw [e4, e3, e2, e1]
    intro hmem
    rcases List.mem_append.mp hmem with h | h
    · exact hRL h
    · simp at h
  have e5 := colNames_setCol_not_mem _ "RevenueLeakage" (rlCol tcol mcol ccol) hRL4
  rw [e5, e4, e3, e2, e1, List.append_assoc]
  rfl

theorem load_data_missing_mc (df : DF)
    (hM : getCol df "MonthlyCharges" = none) :
    load_data (some df) = Except.error (LoadError.missingColumn "MonthlyCharges") := by
  simp only [load_data, hM]

theorem load_data_missing_tenure (df : DF) (mc : List Cell)
    (hM : getCol df "MonthlyCharges" = some mc)
    (hT : getCol df "tenure" = none) :
    load_data (some df) = Except.error (LoadError.missingColumn "tenure") := by
  have h1 : getCol (setCol df "MonthlyCharges" (mc.map toNumeric)) "tenure" = none := by
    rw [getCol_setCol_ne _ _ _ _ (by decide)]
    exact hT
  simp only [load_data, hM, h1]

theorem load_data_missing_tc (df : DF) (mc tcol : List Cell)
    (hM : getCol df "MonthlyCharges" = some mc)
    (hT : getCol df "tenure" = some tcol)
    (hC : getCol df "TotalCharges" = none) :
    load_data (some df) = Except.error (LoadError.missingColumn "TotalCharges") := by
  have h1 : getCol (setCol df "MonthlyCharges" (mc.map toNumeric)) "tenure" = some tcol := by
    rw [getCol_setCol_ne _ _ _ _ (by decide)]
    exact hT
  have h2 : getCol (setCol (setCol df "MonthlyCharges" (mc.map toNumeric))
      "tenure" (tcol.map toNumeric)) "TotalCharges" = none := by
    rw [getCol_setCol_ne _ _ _ _ (by decide), getCol_setCol_ne _ _ _ _ (by decide)]
    exact hC
  simp only [load_data, hM, h1, h2]

/-! ### The claims -/

/-- C1: For every row of the loaded table in which `tenure`,
`MonthlyCharges` and `TotalCharges` are all present (coerced to the
numbers `t`, `m` and `c`), the derived `ExpectedRevenue` cell equals
`t * m` exactly and the derived `RevenueLeakage` cell equals `t * m - c`
exactly. -/
theorem C1_derived_fields_exact (df : DF) (tcol mcol ccol : List Cell) (i : Nat)
    (ct cm cc : Cell) (t m c : ℚ)
    (hT : getCol df "tenure" = some tcol)
    (hM : getCol df "MonthlyCharges" = some mcol)
    (hC : getCol df "TotalCharges" = some ccol)
    (hti : tcol[i]? = some ct) (htn : toNumeric ct = Cell.num t)
    (hmi : mcol[i]? = some cm) (hmn : toNumeric cm = Cell.num m)
    (hci : ccol[i]? = some cc) (hcn : toNumeric cc = Cell.num c) :
    ∃ out ercol rlcol,
      load_data (some df) = Except.ok out ∧
      getCol out "ExpectedRevenue" = some ercol ∧
      ercol[i]? = some (Cell.num (t * m)) ∧
      getCol out "RevenueLeakage" = some rlcol ∧
      rlcol[i]? = some (Cell.num (t * m - c)) := by
  have htm : (tcol.map toNumeric)[i]? = some (Cell.num t) := by
    rw [List.getElem?_map, hti]
    simp [htn]
  have hmm : (mcol.map toNumeric)[i]? = some (Cell.num m) := by
    rw [List.getElem?_map, hmi]
    simp [hmn]
  have hcm : (ccol.map toNumeric)[i]? = some (Cell.num c) := by
    rw [List.getElem?_map, hci]
    simp [hcn]
  have her : (erCol tcol mcol)[i]? = some (Cell.num (t * m)) := by
    unfold erCol
    rw [zipWith_getElem? cellMul _ _ i _ _ htm hmm]
    rfl
  have hrl : (rlCol tcol mcol ccol)[i]? = some (Cell.num (t * m - c)) := by
    unfold rlCol
    rw [zipWith_getElem? cellSub _ _ i _ _ her hcm]
    rfl
  exact ⟨loadOut df tcol mcol ccol, erCol tcol mcol, rlCol tcol mcol ccol,
    load_data_spec df tcol mcol ccol hT hM hC,
    getCol_loadOut_er df tcol mcol ccol, her,
    getCol_loadOut_rl df tcol mcol ccol, hrl⟩

/-- Witness for C1 at Scenario A of the spec: tenure 10, monthly 50,
total 450 gives expected revenue 500 and leakage 50. -/
theorem C1_witness :
    ∃ out ercol rlcol,
      load_data (some dfScenA) = Except.ok out ∧
      getCol out "ExpectedRevenue" = some ercol ∧
      ercol[0]? = some (Cell.num 500) ∧
      getCol out "RevenueLeakage" = some rlcol ∧
      rlcol[0]? = some (Cell.num 50) := by
  obtain ⟨out, ercol, rlcol, h1, h2, h3, h4, h5⟩ :=
    C1_derived_fields_exact dfScenA [Cell.num 10] [Cell.num 50] [Cell.num 450] 0
      (Cell.num 10) (Cell.num 50) (Cell.num 450) 10 50 450
      rfl rfl rfl rfl rfl rfl rfl rfl rfl
  refine ⟨out, ercol, rlcol, h1, h2, ?_, h4, ?_⟩
  · rw [h3]
    norm_num
  · rw [h5]
    norm_num

/-- C2 is refuted at Scenario B of the spec: the `TotalCharges` cell
fails numeric coercion, yet the derived `ExpectedRevenue` cell of the
loaded row is the number 100 rather than missing; only `RevenueLeakage`
is missing. -/
theorem C2_counterexample :
    toNumeric (Cell.text "NA") = Cell.na ∧
    ∃ out, load_data (some dfScenB) = Except.ok out ∧
      getCol out "ExpectedRevenue" = some [Cell.num 100] ∧
      Cell.num (100 : ℚ) ≠ Cell.na ∧
      getCol out "RevenueLeakage" = some [Cell.na] := by
  refine ⟨rfl, outScenB, rfl, ?_, fun h => Cell.noConfusion h, rfl⟩
  have h : getCol outScenB "ExpectedRevenue" = some [Cell.num (5 * 20)] := rfl
  rw [h]
  norm_num

/-- C2 amended: if the `tenure` or `MonthlyCharges` cell of a row fails
numeric coercion, both derived cells of that row are missing; if any of
the three source cells fails, the `RevenueLeakage` cell is missing; and a
missing cell is never the number zero.  (The original claim fails when
only `TotalCharges` is unparseable: `ExpectedRevenue` is then still
present, see `C2_counterexample`.) -/
theorem C2_amended_missing_propagation (df : DF) (tcol mcol ccol : List Cell)
    (i : Nat) (ct cm cc : Cell)
    (hT : getCol df "tenure" = some tcol)
    (hM : getCol df "MonthlyCharges" = some mcol)
    (hC : getCol df "TotalCharges" = some ccol)
    (hti : tcol[i]? = some ct) (hmi : mcol[i]? = some cm) (hci : ccol[i]? = some cc)
    (hfail : toNumeric ct = Cell.na ∨ toNumeric cm = Cell.na ∨ toNumeric cc = Cell.na) :
    ∃ out ercol rlcol,
      load_data (some df) = Except.ok out ∧
      getCol out "ExpectedRevenue" = some ercol ∧
      getCol out "RevenueLeakage" = some rlcol ∧
      rlcol[i]? = some Cell.na ∧
      ((toNumeric ct = Cell.na ∨ toNumeric cm = Cell.na) → ercol[i]? = some Cell.na) ∧
      Cell.na ≠ Cell.num 0 := by
  have htm : (tcol.map toNumeric)[i]? = some (toNumeric ct) := by
    rw [List.getElem?_map, hti]
    rfl
  have hmm : (mcol.map toNumeric)[i]? = some (toNumeric cm) := by
    rw [List.getElem?_map, hmi]
    rfl
  have hcm : (ccol.map toNumeric)[i]? = some (toNumeric cc) := by
    rw [List.getElem?_map, hci]
    rfl
  have her : (erCol tcol mcol)[i]? = some (cellMul (toNumeric ct) (toNumeric cm)) := by
    unfold erCol
    exact zipWith_getElem? cellMul _ _ i _ _ htm hmm
  have hrl : (rlCol tcol mcol ccol)[i]? =
      some (cellSub (cellMul (toNumeric ct) (toNumeric cm)) (toNumeric cc)) := by
    unfold rlCol
    exact zipWith_getElem? cellSub _ _ i _ _ her hcm
  refine ⟨loadOut df tcol mcol ccol, erCol tcol mcol, rlCol tcol mcol ccol,
    load_data_spec df tcol mcol ccol hT hM hC,
    getCol_loadOut_er df tcol mcol ccol,
    getCol_loadOut_rl df tcol mcol ccol, ?_, ?_, fun h => Cell.noConfusion h⟩
  · rw [hrl]
    rcases hfail with h | h | h
    · rw [h, cellMul_na_left, cellSub_na_left]
    · rw [h, cellMul_na_right, cellSub_na_left]
    · rw [h, cellSub_na_right]
  · intro hf
    rw [her]
    rcases hf with h | h
    · rw [h, cellMul_na_left]
    · rw [h, cellMul_na_right]

/-- Witness for the amended C2: with an unparseable tenure cell, both
derived cells of the row are missing. -/
theorem C2_witness :
    ∃ out ercol rlcol,
      load_data (some dfBadTenure) = Except.ok out ∧
      getCol out "ExpectedRevenue" = some ercol ∧
      getCol out "RevenueLeakage" = some rlcol ∧
      rlcol[0]? = some Cell.na ∧
      ercol[0]? = some Cell.na := by
  obtain ⟨out, ercol, rlcol, h1, h2, h3, h4, h5, _⟩ :=
    C2_amended_missing_propagation dfBadTenure
      [Cell.text "BAD"] [Cell.num 20] [Cell.num 30] 0
      (Cell.text "BAD") (Cell.num 20) (Cell.num 30)
      rfl rfl rfl rfl rfl rfl (Or.inl (by decide))
  exact ⟨out, ercol, rlcol, h1, h2, h3, h4, h5 (Or.inl (by decide))⟩

/-- C3: the statistic `total_records` equals the row count of the input
table — the pre-filter count, including rows whose `RevenueLeakage` is
missing. -/
theorem C3_total_records_pre_filter (df : DF) (tcol mcol ccol : List Cell)
    (hT : getCol df "tenure" = some tcol)
    (hM : getCol df "MonthlyCharges" = some mcol)
    (hC : getCol df "TotalCharges" = some ccol)
    (hwf : wfDF df) :
    ∃ out stats,
      load_data (some df) = Except.ok out ∧
      compute_statistics out = some stats ∧
      stats.total_records = nRows df := by
  have ht : tcol.length = nRows df := hwf _ (getCol_mem df _ _ hT)
  have hm : mcol.length = nRows df := hwf _ (getCol_mem df _ _ hM)
  have hc : ccol.length = nRows df := hwf _ (getCol_mem df _ _ hC)
  have hrows := nRows_loadOut df tcol mcol ccol (nRows df) hwf ht hm hc
  refine ⟨loadOut df tcol mcol ccol,
    ⟨nRows (loadOut df tcol mcol ccol),
     (dropna (rlCol tcol mcol ccol)).sum,
     if (dropna (rlCol tcol mcol ccol)).length = 0 then none
     else some ((dropna (rlCol tcol mcol ccol)).sum /
       ((dropna (rlCol tcol mcol ccol)).length : ℚ)),
     ((dropna (rlCol tcol mcol ccol)).filter (fun q => decide (0 < q))).length⟩,
    load_data_spec df tcol mcol ccol hT hM hC, ?_, ?_⟩
  · unfold compute_statistics
    rw [getCol_loadOut_rl]
    rfl
  · exact hrows

/-- Witness for C3 at Scenario B: the single row has missing leakage, yet
`total_records` is 1. -/
theorem C3_witness :
    ∃ out stats,
      load_data (some dfScenB) = Except.ok out ∧
      compute_statistics out = some stats ∧
      stats.total_records = 1 := by
  obtain ⟨out, stats, h1, h2, h3⟩ :=
    C3_total_records_pre_filter dfScenB [Cell.num 5] [Cell.num 20] [Cell.text "NA"]
      rfl rfl rfl (by decide)
  exact ⟨out, stats, h1, h2, h3⟩

/-- C4: when every leakage value of the table is missing, the aggregator
returns total leakage 0, a missing mean (no numeric error is raised) and
positive count 0, while `total_records` still counts all rows. -/
theorem C4_empty_leakage_stats (df : DF) (col : List Cell)
    (h : getCol df "RevenueLeakage" = some col)
    (hempty : dropna col = []) :
    compute_statistics df = some ⟨nRows df, 0, none, 0⟩ := by
  unfold compute_statistics
  rw [h]
  simp [hempty]

/-- Witness for C4 at Scenario B, end to end: the one-row table with
unparseable total charges loads to a frame with missing leakage, and the
aggregator returns `total_records = 1`, `total_leakage = 0`, an undefined
`average_leakage` and `positive_leakage_count = 0`. -/
theorem C4_witness :
    ∃ out, load_data (some dfScenB) = Except.ok out ∧
      compute_statistics out = some ⟨1, 0, none, 0⟩ := by
  refine ⟨outScenB, rfl, ?_⟩
  exact C4_empty_leakage_stats outScenB [Cell.na] rfl rfl

/-- C5: whenever the count of non-missing leakage values is strictly
positive, the mean equals the total leakage divided by that count. -/
theorem C5_average_eq_total_div_count (df : DF) (col : List Cell)
    (h : getCol df "RevenueLeakage" = some col)
    (hpos : 0 < (dropna col).length) :
    ∃ stats,
      compute_statistics df = some stats ∧
      stats.total_leakage = (dropna col).sum ∧
      stats.average_leakage = some (stats.total_leakage / ((dropna col).length : ℚ)) := by
  have hne : (dropna col).length ≠ 0 := Nat.pos_iff_ne_zero.mp hpos
  refine ⟨⟨nRows df, (dropna col).sum,
    some ((dropna col).sum / ((dropna col).length : ℚ)),
    ((dropna col).filter (fun q => decide (0 < q))).length⟩, ?_, rfl, rfl⟩
  unfold compute_statistics
  rw [h]
  simp only [Option.map_some']
  rw [if_neg hne]

/-- Witness for C5: leakage values 2 and 4 give total 6 and mean 6 / 2. -/
theorem C5_witness :
    ∃ stats,
      compute_statistics dfLeak = some stats ∧
      stats.total_leakage = 6 ∧
      stats.average_leakage = some (stats.total_leakage / (2 : ℚ)) := by
  obtain ⟨stats, h1, h2, h3⟩ :=
    C5_average_eq_total_div_count dfLeak [Cell.num 2, Cell.num 4] rfl (by decide)
  have hdrop : dropna [Cell.num 2, Cell.num 4] = [2, 4] := rfl
  have hlen : ((dropna [Cell.num 2, Cell.num 4]).length : ℚ) = 2 := by
    rw [hdrop]
    norm_num
  refine ⟨stats, h1, ?_, ?_⟩
  · rw [h2, hdrop]
    norm_num
  · rw [hlen] at h3
    exact h3

/-- C6: the aggregator's counts satisfy the chain
`positive_leakage_count ≤ count of non-missing leakage ≤ total_records`,
`positive_leakage_count` counting only the non-missing values strictly
greater than zero. -/
theorem C6_count_inequalities (df : DF) (col : List Cell)
    (h : getCol df "RevenueLeakage" = some col)
    (hwf : wfDF df) :
    ∃ stats,
      compute_statistics df = some stats ∧
      stats.positive_leakage_count = ((dropna col).filter (fun q => decide (0 < q))).length ∧
      stats.positive_leakage_count ≤ (dropna col).length ∧
      (dropna col).length ≤ stats.total_records := by
  refine ⟨⟨nRows df, (dropna col).sum,
    if (dropna col).length = 0 then none
    else some ((dropna col).sum / ((dropna col).length : ℚ)),
    ((dropna col).filter (fun q => decide (0 < q))).length⟩, ?_, rfl, ?_, ?_⟩
  · unfold compute_statistics
    rw [h]
    rfl
  · exact List.length_filter_le _ _
  · have hcl : col.length = nRows df := hwf _ (getCol_mem df _ _ h)
    have hd : (dropna col).length ≤ col.length := by
      unfold dropna
      exact List.length_filterMap_le _ _
    exact hcl ▸ hd

/-- Witness for C6: leakage values 2 and 4 give positive count 2, two
non-missing values and two records. -/
theorem C6_witness :
    ∃ stats,
      compute_statistics dfLeak = some stats ∧
      stats.positive_leakage_count ≤ 2 ∧
      2 ≤ stats.total_records := by
  obtain ⟨stats, h1, _, h3, h4⟩ :=
    C6_count_inequalities dfLeak [Cell.num 2, Cell.num 4] rfl (by decide)
  have hlen : (dropna [Cell.num 2, Cell.num 4]).length = 2 := by
    rw [show dropna [Cell.num 2, Cell.num 4] = [2, 4] from rfl]
    rfl
  exact ⟨stats, h1, hlen ▸ h3, hlen ▸ h4⟩

/-- C7: per-cell coercion failure is non-fatal.  With the three required
columns present, the loader succeeds whatever the cells hold; an
unparseable text cell coerces to the missing marker, which is not an
error and not a number — in particular not zero. -/
theorem C7_coercion_nonfatal (df : DF) (tcol mcol ccol : List Cell)
    (hT : getCol df "tenure" = some tcol)
    (hM : getCol df "MonthlyCharges" = some mcol)
    (hC : getCol df "TotalCharges" = some ccol) :
    (∃ out, load_data (some df) = Except.ok out) ∧
    (∀ s : String, parseNum s = none → toNumeric (Cell.text s) = Cell.na) ∧
    (∀ q : ℚ, Cell.na ≠ Cell.num q) := by
  refine ⟨⟨loadOut df tcol mcol ccol, load_data_spec df tcol mcol ccol hT hM hC⟩, ?_, ?_⟩
  · intro s hs
    simp only [toNumeric, hs]
  · intro q h
    exact Cell.noConfusion h

/-- Witness for C7: a frame whose three required cells are unparseable or
missing still loads, and the garbage cell coerces to the missing
marker. -/
theorem C7_witness :
    (∃ out, load_data (some dfGarbage) = Except.ok out) ∧
    toNumeric (Cell.text "x") = Cell.na ∧
    Cell.na ≠ Cell.num 0 := by
  have h := C7_coercion_nonfatal dfGarbage
    [Cell.text "x"] [Cell.na] [Cell.text "NA"] rfl rfl rfl
  exact ⟨h.1, h.2.1 "x" (by decide), h.2.2 0⟩

/-- C8: the loader fails exactly when the table cannot be read at all or
one of the required columns `tenure`, `MonthlyCharges`, `TotalCharges` is
absent, and every failure is of one of those forms (no frame, hence no
derived column, is produced on failure). -/
theorem C8_failure_characterization :
    load_data none = Except.error LoadError.readFailure ∧
    (∀ df : DF,
      (∃ e, load_data (some df) = Except.error e) ↔
        ¬(hasCol df "tenure" = true ∧ hasCol df "MonthlyCharges" = true ∧
          hasCol df "TotalCharges" = true)) ∧
    (∀ src e, load_data src = Except.error e →
      e = LoadError.readFailure ∨ e = LoadError.missingColumn "tenure" ∨
      e = LoadError.missingColumn "MonthlyCharges" ∨
      e = LoadError.missingColumn "TotalCharges") := by
  refine ⟨rfl, ?_, ?_⟩
  · intro df
    cases hM : getCol df "MonthlyCharges" with
    | none =>
        rw [load_data_missing_mc df hM]
        simp [hasCol, hM]
    | some mc =>
        cases hT : getCol df "tenure" with
        | none =>
            rw [load_data_missing_tenure df mc hM hT]
            simp [hasCol, hT]
        | some tcol =>
            cases hC : getCol df "TotalCharges" with
            | none =>
                rw [load_data_missing_tc df mc tcol hM hT hC]
                simp [hasCol, hM, hT, hC]
            | some ccol =>
                rw [load_data_spec df tcol mc ccol hT hM hC]
                simp [hasCol, hM, hT, hC]
  · intro src e he
    cases src with
    | none =>
        simp only [load_data, Except.error.injEq] at he
        exact Or.inl he.symm
    | some df =>
        cases hM : getCol df "MonthlyCharges" with
        | none =>
            rw [load_data_missing_mc df hM] at he
            simp only [Except.error.injEq] at he
            exact Or.inr (Or.inr (Or.inl he.symm))
        | some mc =>
            cases hT : getCol df "tenure" with
            | none =>
                rw [load_data_missing_tenure df mc hM hT] at he
                simp only [Except.error.injEq] at he
                exact Or.inr (Or.inl he.symm)
            | some tcol =>
                cases hC : getCol df "TotalCharges" with
                | none =>
                    rw [load_data_missing_tc df mc tcol hM hT hC] at he
                    simp only [Except.error.injEq] at he
                    exact Or.inr (Or.inr (Or.inr he.symm))
                | some ccol =>
                    rw [load_data_spec df tcol mc ccol hT hM hC] at he
                    exact Except.noConfusion he

/-- Witness for C8: a one-column frame lacking the charge columns makes
the loader fail. -/
theorem C8_witness : ∃ e, load_data (some dfMissingCols) = Except.error e :=
  (C8_failure_characterization.2.1 dfMissingCols).mpr (by decide)

theorem histEdges_length (lo hi : ℚ) (n : Nat) : (histEdges lo hi n).length = n + 1 := by
  simp [histEdges]

theorem histEdges_getElem? (lo hi : ℚ) (n i : Nat) (h : i < n + 1) :
    (histEdges lo hi n)[i]? = some (lo + (hi - lo) * (i : ℚ) / (n : ℚ)) := by
  unfold histEdges
  rw [List.getElem?_map, List.getElem?_range h]
  rfl

theorem histEdges_head? (lo hi : ℚ) (n : Nat) :
    (histEdges lo hi n).head? = some lo := by
  rw [List.head?_eq_getElem?, histEdges_getElem? lo hi n 0 (Nat.succ_pos n)]
  norm_num

theorem histEdges_getLast? (lo hi : ℚ) (n : Nat) (hn : n ≠ 0) :
    (histEdges lo hi n).getLast? = some hi := by
  rw [List.getLast?_eq_getElem?, histEdges_length]
  rw [show n + 1 - 1 = n from rfl, histEdges_getElem? lo hi n n (Nat.lt_succ_self n)]
  have hq : (n : ℚ) ≠ 0 := Nat.cast_ne_zero.mpr hn
  have hv : lo + (hi - lo) * (n : ℚ) / (n : ℚ) = hi := by
    rw [mul_div_assoc, div_self hq, mul_one]
    ring
  rw [hv]

theorem histEdges_width (lo hi : ℚ) (n i : Nat) (hn : n ≠ 0) (h : i + 1 < n + 1) :
    ∃ a b, (histEdges lo hi n)[i]? = some a ∧ (histEdges lo hi n)[i + 1]? = some b ∧
      b - a = (hi - lo) / (n : ℚ) := by
  refine ⟨_, _, histEdges_getElem? lo hi n i (Nat.lt_of_succ_lt h),
    histEdges_getElem? lo hi n (i + 1) h, ?_⟩
  have hq : (n : ℚ) ≠ 0 := Nat.cast_ne_zero.mpr hn
  push_cast
  field_simp
  ring

theorem histCounts_length (lo hi : ℚ) (n : Nat) (values : List ℚ) :
    (histCounts lo hi n values).length = n := by
  simp [histCounts]

/-- C9: the histogram step is total.  It always yields 15 bin counts; an
empty value set yields 15 empty bins — a degenerate plot, not an error;
a non-empty value set with minimum `lo` and maximum `hi` yields the 16
edges of 15 equal-width bins spanning `lo` to `hi`. -/
theorem C9_histogram_total (df : DF) (col : List Cell)
    (h : getCol df "RevenueLeakage" = some col) :
    ∃ edges counts,
      plot_leakage_histogram df = some (edges, counts) ∧
      counts.length = 15 ∧
      (dropna col = [] → counts = List.replicate 15 0) ∧
      (∀ lo hi, (dropna col).min? = some lo → (dropna col).max? = some hi →
        edges.length = 16 ∧
        edges.head? = some lo ∧
        edges.getLast? = some hi ∧
        (∀ i, i < 15 → ∃ a b, edges[i]? = some a ∧ edges[i + 1]? = some b ∧
          b - a = (hi - lo) / 15)) := by
  unfold plot_leakage_histogram
  rw [h]
  simp only [Option.map_some']
  cases hmin : (dropna col).min? with
  | none =>
      cases hmax : (dropna col).max? with
      | none =>
          refine ⟨histEdges 0 1 15, List.replicate 15 0, rfl, by simp, fun _ => rfl, ?_⟩
          intro lo hi hlo _
          exact Option.noConfusion hlo
      | some hi0 =>
          exfalso
          have he : dropna col = [] := List.min?_eq_none_iff.mp hmin
          rw [he] at hmax
          exact Option.noConfusion hmax
  | some lo0 =>
      cases hmax : (dropna col).max? with
      | none =>
          exfalso
          have he : dropna col = [] := List.max?_eq_none_iff.mp hmax
          rw [he] at hmin
          exact Option.noConfusion hmin
      | some hi0 =>
          refine ⟨histEdges lo0 hi0 15, histCounts lo0 hi0 15 (dropna col), rfl,
            histCounts_length lo0 hi0 15 (dropna col), ?_, ?_⟩
          · intro he
            rw [he] at hmin
            simp at hmin
          · intro lo hi hlo hhi
            have hl : lo0 = lo := Option.some.inj hlo
            have hh : hi0 = hi := Option.some.inj hhi
            rw [← hl, ← hh]
            refine ⟨histEdges_length lo0 hi0 15, histEdges_head? lo0 hi0 15,
              histEdges_getLast? lo0 hi0 15 (by decide), ?_⟩
            intro i hi15
            obtain ⟨a, b, ha, hb, hw⟩ :=
              histEdges_width lo0 hi0 15 i (by decide) (Nat.succ_lt_succ hi15)
            refine ⟨a, b, ha, hb, ?_⟩
            rw [hw]
            norm_num

/-- Witness for C9: a column with values 0 and 30 around a missing cell
yields 15 bins whose edges run from 0 to 30. -/
theorem C9_witness :
    ∃ edges counts,
      plot_leakage_histogram dfHist = some (edges, counts) ∧
      counts.length = 15 ∧
      edges.head? = some 0 ∧
      edges.getLast? = some 30 := by
  obtain ⟨edges, counts, h1, h2, _, h4⟩ :=
    C9_histogram_total dfHist [Cell.num 0, Cell.na, Cell.num 30] rfl
  obtain ⟨_, h5, h6, _⟩ := h4 0 30 (by decide) (by decide)
  exact ⟨edges, counts, h1, h2, h5, h6⟩

/-- C10 is refuted when the input table already contains a column named
`ExpectedRevenue`: the loader overwrites that column in place, so a
column other than the three inputs is changed and only one new column is
appended rather than two. -/
theorem C10_counterexample :
    ∃ out, load_data (some dfPreER) = Except.ok out ∧
      getCol out "ExpectedRevenue" ≠ getCol dfPreER "ExpectedRevenue" ∧
      colNames out = colNames dfPreER ++ ["RevenueLeakage"] ∧
      colNames out ≠ colNames dfPreER ++ ["ExpectedRevenue", "RevenueLeakage"] := by
  refine ⟨outPreER, rfl, ?_, rfl, by decide⟩
  have h1 : getCol outPreER "ExpectedRevenue" = some [Cell.num (1 * 2)] := rfl
  have h2 : getCol dfPreER "ExpectedRevenue" = some [Cell.text "x"] := rfl
  rw [h1, h2]
  simp

/-- C10 amended: provided the input table does not already contain a
column named `ExpectedRevenue` or `RevenueLeakage`, loading preserves the
row count and every column other than the three coerced inputs, and
appends exactly the two derived columns at the end. -/
theorem C10_amended_frame (df : DF) (tcol mcol ccol : List Cell)
    (hT : getCol df "tenure" = some tcol)
    (hM : getCol df "MonthlyCharges" = some mcol)
    (hC : getCol df "TotalCharges" = some ccol)
    (hER : ¬"ExpectedRevenue" ∈ colNames df)
    (hRL : ¬"RevenueLeakage" ∈ colNames df)
    (hwf : wfDF df) :
    ∃ out, load_data (some df) = Except.ok out ∧
      nRows out = nRows df ∧
      wfDF out ∧
      colNames out = colNames df ++ ["ExpectedRevenue", "RevenueLeakage"] ∧
      (∀ m, m ≠ "tenure" → m ≠ "MonthlyCharges" → m ≠ "TotalCharges" →
        m ≠ "ExpectedRevenue" → m ≠ "RevenueLeakage" →
        getCol out m = getCol df m) := by
  have ht : tcol.length = nRows df := hwf _ (getCol_mem df _ _ hT)
  have hm : mcol.length = nRows df := hwf _ (getCol_mem df _ _ hM)
  have hc : ccol.length = nRows df := hwf _ (getCol_mem df _ _ hC)
  have hlen := loadOut_len df tcol mcol ccol (nRows df) hwf ht hm hc
  have hrows := nRows_loadOut df tcol mcol ccol (nRows df) hwf ht hm hc
  refine ⟨loadOut df tcol mcol ccol, load_data_spec df tcol mcol ccol hT hM hC,
    hrows, ?_, ?_, ?_⟩
  · intro p hp
    rw [hrows]
    exact hlen p hp
  · exact colNames_loadOut df tcol mcol ccol
      (getCol_name_mem df _ _ hT) (getCol_name_mem df _ _ hM)
      (getCol_name_mem df _ _ hC) hER hRL
  · intro m h1 h2 h3 h4 h5
    exact getCol_loadOut_other df tcol mcol ccol m h1 h2 h3 h4 h5

/-- Witness for the amended C10: a frame with an extra `customerID`
column keeps its row count and that column unchanged, and gains exactly
the two derived columns. -/
theorem C10_witness :
    ∃ out, load_data (some dfExtra) = Except.ok out ∧
      nRows out = nRows dfExtra ∧
      colNames out = colNames dfExtra ++ ["ExpectedRevenue", "RevenueLeakage"] ∧
      getCol out "customerID" = getCol dfExtra "customerID" := by
  obtain ⟨out, h1, h2, _, h4, h5⟩ :=
    C10_amended_frame dfExtra [Cell.num 10] [Cell.num 50] [Cell.num 450]
      rfl rfl rfl (by decide) (by decide) (by decide)
  exact ⟨out, h1, h2, h4,
    h5 "customerID" (by decide) (by decide) (by decide) (by decide) (by decide)⟩

end RLD
